import Mathlib

/-!
Verification development for the core modules of The Big Picture
(`trunk/ifddatatypes.py` and `trunk/metainfofile.py`).

The Python code is shallowly embedded: byte strings become `List Nat`
(one entry per byte), Python numbers become `Int`, rationals become
explicit numerator/denominator pairs, floats become explicit IEEE-754
binary64 components, and Python exceptions become an explicit result
type `PyResult`.  The `byteform` module is not part of the sources and
is modelled from the specification (it is declared there an external
collaborator exposing integer/rational/float pack and unpack routines).
-/

/-- Python exceptions and failure modes observable in the embedded code.
Messages are kept close to the literal strings raised by the source. -/
inductive PyErr : Type where
  | keyError (msg : String)
  | typeError (msg : String)
  | valueError (msg : String)
  | nameError (msg : String)
  | unboundLocalError (msg : String)
  | attributeError (msg : String)
  | indexError (msg : String)
  | raiseStr (msg : String)
  | rangeError (msg : String)
deriving DecidableEq, Repr

/-- Result of running a piece of embedded Python: a value or an exception. -/
inductive PyResult (α : Type) : Type where
  | ok : α → PyResult α
  | exc : PyErr → PyResult α
deriving DecidableEq, Repr

/-- Modelled from the spec: little-endian byte decomposition used by the
byteform collaborator; byte `i` holds `n / 256 ^ i % 256`. -/
def leBytes (w n : Nat) : List Nat :=
  (List.range w).map (fun i => n / 256 ^ i % 256)

/-- Modelled from the spec: value of a little-endian byte list. -/
def leVal : List Nat → Nat
  | [] => 0
  | b :: bs => b + 256 * leVal bs

/-- Modelled from the spec: pack `n` into `w` bytes at the requested byte
order (big endian is the little-endian list reversed). -/
def bytesOf (n w : Nat) (be : Bool) : List Nat :=
  if be then (leBytes w n).reverse else leBytes w n

/-- Modelled from the spec: read back an unsigned integer from a byte list
at the requested byte order. -/
def natOfBytes (bs : List Nat) (be : Bool) : Nat :=
  if be then leVal bs.reverse else leVal bs

/-- Representable range of a `w`-byte integer, signed or unsigned; the spec
says encoding a value outside the representable range fails. -/
def intRangeB (w : Nat) (sg : Bool) (v : Int) : Bool :=
  match sg with
  | true => decide (-((2 : Int) ^ (8 * w - 1)) ≤ v) && decide (v < (2 : Int) ^ (8 * w - 1))
  | false => decide ((0 : Int) ≤ v) && decide (v < (2 : Int) ^ (8 * w))

/-- Modelled from the spec: byteform `encode_int(value, width, signed,
big_endian)`; packs into exactly `width` bytes (in two-complement form when
signed) and fails on a value outside the representable range. -/
def encode_int (v : Int) (w : Nat) (sg : Bool) (be : Bool) : PyResult (List Nat) :=
  if intRangeB w sg v then
    .ok (bytesOf ((v % (2 : Int) ^ (8 * w)).toNat) w be)
  else
    .exc (.rangeError "integer out of range for the requested width")

/-- Modelled from the spec: byteform `decode_int(bytes, signed, big_endian)`;
reads the unsigned value and reinterprets the top bit when signed. -/
def decode_int (bs : List Nat) (sg : Bool) (be : Bool) : Int :=
  let n := natOfBytes bs be
  if sg && decide (2 ^ (8 * bs.length - 1) ≤ n) then
    (n : Int) - (2 : Int) ^ (8 * bs.length)
  else
    (n : Int)

lemma leBytes_succ (w n : Nat) :
    leBytes (w + 1) n = n % 256 :: leBytes w (n / 256) := by
  simp only [leBytes, List.range_succ_eq_map, List.map_cons, List.map_map]
  refine congrArg₂ List.cons (by norm_num) ?_
  refine List.map_congr_left ?_
  intro i _
  show n / 256 ^ (i + 1) % 256 = n / 256 / 256 ^ i % 256
  rw [Nat.div_div_eq_div_mul, pow_succ, mul_comm (256 ^ i) 256, mul_comm 256 (256 ^ i)]

lemma leVal_leBytes : ∀ w n : Nat, n < 2 ^ (8 * w) → leVal (leBytes w n) = n := by
  intro w
  induction w with
  | zero =>
      intro n hn
      simp only [Nat.mul_zero, pow_zero, Nat.lt_one_iff] at hn
      simp [leBytes, leVal, hn]
  | succ w ih =>
      intro n hn
      have hpow : 2 ^ (8 * (w + 1)) = 2 ^ (8 * w) * 256 := by
        have h8 : 8 * (w + 1) = 8 * w + 8 := by ring
        rw [h8, pow_add]
        norm_num
      have hdiv : n / 256 < 2 ^ (8 * w) := by
        rw [Nat.div_lt_iff_lt_mul (by norm_num)]
        rw [hpow] at hn
        exact hn
      rw [leBytes_succ, leVal, ih (n / 256) hdiv]
      omega

lemma natOfBytes_bytesOf (n w : Nat) (be : Bool) (hn : n < 2 ^ (8 * w)) :
    natOfBytes (bytesOf n w be) be = n := by
  cases be <;> simp [natOfBytes, bytesOf, List.reverse_reverse, leVal_leBytes w n hn]

lemma bytesOf_length (n w : Nat) (be : Bool) : (bytesOf n w be).length = w := by
  cases be <;> simp [bytesOf, leBytes]

lemma decode_encode_int (w : Nat) (hw : 1 ≤ w) (v : Int) (sg be : Bool)
    (h : intRangeB w sg v = true) :
    ∃ bs, encode_int v w sg be = .ok bs ∧ bs.length = w ∧ decode_int bs sg be = v := by
  refine ⟨_, by rw [encode_int, if_pos h], bytesOf_length _ _ _, ?_⟩
  have hMsplit : 2 ^ (8 * w) = 2 * 2 ^ (8 * w - 1) := by
    have h8 : 8 * w - 1 + 1 = 8 * w := by omega
    calc 2 ^ (8 * w) = 2 ^ (8 * w - 1 + 1) := by rw [h8]
    _ = 2 ^ (8 * w - 1) * 2 := pow_succ 2 _
    _ = 2 * 2 ^ (8 * w - 1) := by ring
  have hcastM : ((2 : Int) ^ (8 * w)) = ((2 ^ (8 * w) : Nat) : Int) := by push_cast; ring
  have hcastT : ((2 : Int) ^ (8 * w - 1)) = ((2 ^ (8 * w - 1) : Nat) : Int) := by push_cast; ring
  have hTM : ((2 : Int) ^ (8 * w - 1)) ≤ (2 : Int) ^ (8 * w) :=
    pow_le_pow_right₀ (by norm_num) (by omega)
  have hMpos : (0 : Int) < (2 : Int) ^ (8 * w) := by positivity
  -- the packed unsigned value
  set N : Nat := (v % (2 : Int) ^ (8 * w)).toNat with hN
  have hNmod : (N : Int) = v % (2 : Int) ^ (8 * w) := by
    rw [hN, Int.toNat_of_nonneg (Int.emod_nonneg v (ne_of_gt hMpos))]
  have hNlt : N < 2 ^ (8 * w) := by
    have := Int.emod_lt_of_pos v hMpos
    rw [← hNmod, hcastM] at this
    exact_mod_cast this
  have hval : natOfBytes (bytesOf N w be) be = N := natOfBytes_bytesOf N w be hNlt
  rw [decode_int]
  simp only [bytesOf_length, hval]
  cases sg with
  | false =>
      simp only [intRangeB, Bool.and_eq_true, decide_eq_true_eq] at h
      have hNv : (N : Int) = v := by rw [hNmod, Int.emod_eq_of_lt h.1 h.2]
      simpa using hNv
  | true =>
      simp only [intRangeB, Bool.and_eq_true, decide_eq_true_eq] at h
      have hNv : (N : Int) = v ∨ (N : Int) = v + 2 ^ (8 * w) := by
        rcases le_or_lt 0 v with h0 | h0
        · left
          have hvM : v < (2 : Int) ^ (8 * w) := lt_of_lt_of_le h.2 hTM
          rw [hNmod, Int.emod_eq_of_lt h0 hvM]
        · right
          have hshift : (v + 2 ^ (8 * w)) % (2 : Int) ^ (8 * w) = v % (2 : Int) ^ (8 * w) := by
            have := Int.add_mul_emod_self_left v ((2 : Int) ^ (8 * w)) 1
            simp only [mul_one] at this
            exact this
          have hsmall : (v + 2 ^ (8 * w)) % (2 : Int) ^ (8 * w) = v + 2 ^ (8 * w) :=
            Int.emod_eq_of_lt (by omega) (by omega)
          rw [hNmod, ← hshift, hsmall]
      simp only [Bool.true_and]
      have h1 := h.1
      have h2 := h.2
      rw [hcastM] at hNv
      rw [hcastT] at h1 h2
      rw [hcastM]
      by_cases hbit : 2 ^ (8 * w - 1) ≤ N
      · rw [if_pos (by simpa using hbit)]
        push_cast at hNv h1 h2 ⊢
        omega
      · rw [if_neg (by simpa using hbit)]
        push_cast at hNv h1 h2 ⊢
        omega

/-- Python values that flow through the numeric data type codecs: plain
integers, rational numerator/denominator pairs, and floats given by their
IEEE-754 binary64 components (sign, biased exponent, fraction). -/
inductive PyNum : Type where
  | int (v : Int)
  | pair (numerator denominator : Int)
  | flt (sign : Bool) (exponent fraction : Nat)
deriving DecidableEq, Repr

/-- Exact representability of a binary64 value at single precision:
zero, or a normal value whose exponent fits binary32 and whose fraction
carries no bits below the binary32 precision. -/
def fits32 (e m : Nat) : Bool :=
  (decide (e = 0) && decide (m = 0)) ||
  (decide (897 ≤ e) && decide (e ≤ 1150) && decide (m % 2 ^ 29 = 0))

/-- Representable range of a float at the requested width: any well-formed
binary64 component triple at width 8, only exactly-representable values at
width 4. -/
def floatRangeB (w e m : Nat) : Bool :=
  decide (e < 2048) && decide (m < 2 ^ 52) && (if w = 4 then fits32 e m else true)

/-- Modelled from the spec: byteform `encode_float` packs an IEEE-754 value
at 4 or 8 bytes; a value outside the representable range of the requested
width fails with a range error. -/
def encode_float (s : Bool) (e m : Nat) (w : Nat) (be : Bool) : PyResult (List Nat) :=
  if floatRangeB w e m then
    if w = 8 then
      .ok (bytesOf ((if s then 2 ^ 63 else 0) + e * 2 ^ 52 + m) 8 be)
    else if w = 4 then
      if e = 0 then
        .ok (bytesOf (if s then 2 ^ 31 else 0) 4 be)
      else
        .ok (bytesOf ((if s then 2 ^ 31 else 0) + (e - 896) * 2 ^ 23 + m / 2 ^ 29) 4 be)
    else .exc (.rangeError "unsupported float width")
  else .exc (.rangeError "value not exactly representable at this float width")

/-- Widening of a binary32 bit pattern `n` to binary64 components:
zero stays zero, a subnormal is normalized via its leading bit, infinities
and NaNs map to the maximal exponent, and a normal value rebases its
exponent and shifts its fraction. -/
def decode_float32 (n : Nat) : PyNum :=
  if n / 2 ^ 23 % 2 ^ 8 = 0 then
    if n % 2 ^ 23 = 0 then .flt (decide (n / 2 ^ 31 = 1)) 0 0
    else
      .flt (decide (n / 2 ^ 31 = 1)) (Nat.log2 (n % 2 ^ 23) + 874)
        ((n % 2 ^ 23 - 2 ^ Nat.log2 (n % 2 ^ 23)) * 2 ^ (52 - Nat.log2 (n % 2 ^ 23)))
  else if n / 2 ^ 23 % 2 ^ 8 = 255 then
    .flt (decide (n / 2 ^ 31 = 1)) 2047 (n % 2 ^ 23 * 2 ^ 29)
  else
    .flt (decide (n / 2 ^ 31 = 1)) (n / 2 ^ 23 % 2 ^ 8 + 896) (n % 2 ^ 23 * 2 ^ 29)

/-- Modelled from the spec: byteform `decode_float` unpacks 8 bytes as a
binary64 value and 4 bytes as a binary32 value widened to binary64
components; total, as the primitive never fails on width-conforming
input. -/
def decode_float (bs : List Nat) (be : Bool) : PyNum :=
  if bs.length = 8 then
    .flt (decide (natOfBytes bs be % 2 ^ 64 / 2 ^ 63 = 1))
         (natOfBytes bs be % 2 ^ 64 / 2 ^ 52 % 2 ^ 11)
         (natOfBytes bs be % 2 ^ 64 % 2 ^ 52)
  else
    decode_float32 (natOfBytes bs be % 2 ^ 32)

/-- Modelled from the spec: byteform `itob`; packs one integer word.  Any
non-integer Python value makes the primitive fail. -/
def itob (v : PyNum) (w : Nat) (sg be : Bool) : PyResult (List Nat) :=
  match v with
  | .int n => encode_int n w sg be
  | _ => .exc (.typeError "encode_int expects an integer")

/-- Modelled from the spec: byteform `rtob`; packs a rational as two
half-width integers, numerator first. -/
def rtob (v : PyNum) (w : Nat) (sg be : Bool) : PyResult (List Nat) :=
  match v with
  | .pair a b =>
    match encode_int a (w / 2) sg be, encode_int b (w / 2) sg be with
    | .ok na, .ok nb => .ok (na ++ nb)
    | .exc e, _ => .exc e
    | .ok _, .exc e => .exc e
  | _ => .exc (.typeError "encode_rational expects a pair of integers")

/-- Modelled from the spec: byteform `ftob`; packs one float word. -/
def ftob (v : PyNum) (w : Nat) (be : Bool) : PyResult (List Nat) :=
  match v with
  | .flt s e m => encode_float s e m w be
  | _ => .exc (.typeError "encode_float expects a float")

/-- Modelled from the spec: byteform `btoi`. -/
def btoi (bs : List Nat) (sg be : Bool) : PyNum := .int (decode_int bs sg be)

/-- Modelled from the spec: byteform `btor`; splits the word into two
half-width integers, numerator first. -/
def btor (bs : List Nat) (sg be : Bool) : PyNum :=
  .pair (decode_int (bs.take (bs.length / 2)) sg be)
        (decode_int (bs.drop (bs.length / 2)) sg be)

/-- Modelled from the spec: byteform `btof`. -/
def btof (bs : List Nat) (be : Bool) : PyNum := decode_float bs be

/-- Which primitive pair a descriptor uses as `word_encoder`/`word_decoder`
(ifddatatypes.py class attributes). -/
inductive WordCodec : Type where
  | int
  | rational
  | float
deriving DecidableEq, Repr

/-- One TIFF/Exif numeric data type descriptor (class attributes `num`,
`word_width`, `signed`, and the word codec pair) from ifddatatypes.py. -/
structure DataType : Type where
  num : Nat
  word_width : Nat
  signed : Option Bool
  codec : WordCodec
deriving DecidableEq, Repr

/-- Dispatch of `cls.word_encoder(word, cls.word_width[, cls.signed],
is_big_endian)` (ifddatatypes.py lines 50-55): the signedness flag is
passed exactly when the class declares one. -/
def DataType.wordEncode (D : DataType) (v : PyNum) (be : Bool) : PyResult (List Nat) :=
  match D.codec with
  | .int => itob v D.word_width (D.signed.getD false) be
  | .rational => rtob v D.word_width (D.signed.getD false) be
  | .float => ftob v D.word_width be

/-- Dispatch of `cls.word_decoder(word[, cls.signed], is_big_endian)`
(ifddatatypes.py lines 73-78). -/
def DataType.wordDecode (D : DataType) (bs : List Nat) (be : Bool) : PyNum :=
  match D.codec with
  | .int => btoi bs (D.signed.getD false) be
  | .rational => btor bs (D.signed.getD false) be
  | .float => btof bs be

/-- The argument of `DataType.encode`: a bare scalar or a sequence. -/
inductive PyStream : Type where
  | scalar (v : PyNum)
  | seq (vs : List PyNum)
deriving DecidableEq, Repr

/-- Scalar coercion of ifddatatypes.py line 45: a bare int, long or float is
wrapped in a one-element list; a bare rational tuple is not of any of those
types, so the encode loop iterates over its two integer components instead. -/
def toWordList : PyStream → List PyNum
  | .scalar (.int v) => [.int v]
  | .scalar (.flt s e m) => [.flt s e m]
  | .scalar (.pair a b) => [.int a, .int b]
  | .seq vs => vs

/-- The word-encoding loop of `DataType.encode` (ifddatatypes.py lines
48-57): each word is encoded and the byte strings are concatenated in
input order; the first failing word aborts the call. -/
def encodeWords (D : DataType) (be : Bool) : List PyNum → PyResult (List Nat)
  | [] => .ok []
  | v :: vs =>
    match D.wordEncode v be with
    | .exc e => .exc e
    | .ok b =>
      match encodeWords D be vs with
      | .exc e => .exc e
      | .ok rest => .ok (b ++ rest)

/-- Embeds `DataType.encode` (ifddatatypes.py lines 39-59). -/
def DataType.encode (D : DataType) (stream : PyStream) (be : Bool) : PyResult (List Nat) :=
  encodeWords D be (toWordList stream)

/-- The word-decoding loop of `DataType.decode` (ifddatatypes.py lines
70-80): one decoded word per `word_width`-sized slice, in stream order.
The fuel argument is the number of slices, `len(byte_str) / word_width`. -/
def decodeWords (D : DataType) (be : Bool) : Nat → List Nat → List PyNum
  | 0, _ => []
  | k + 1, bs =>
      D.wordDecode (bs.take D.word_width) be :: decodeWords D be k (bs.drop D.word_width)

/-- Embeds `DataType.decode` (ifddatatypes.py lines 61-82): a byte count that is
not a multiple of the word width raises; otherwise each word is decoded in
stream order. -/
def DataType.decode (D : DataType) (bs : List Nat) (be : Bool) : PyResult (List PyNum) :=
  if bs.length % D.word_width ≠ 0 then
    .exc (.raiseStr "The number of bytes for decoding does not match the specified word width!")
  else
    .ok (decodeWords D be (bs.length / D.word_width) bs)

/-- Decode composed with encode, the round-trip of the spec. -/
def DataType.roundtrip (D : DataType) (stream : PyStream) (be : Bool) : PyResult (List PyNum) :=
  match D.encode stream be with
  | .ok bs => D.decode bs be
  | .exc e => .exc e

def Ifd.Byte : DataType := ⟨1, 1, some false, .int⟩
def Ifd.Short : DataType := ⟨3, 2, some false, .int⟩
def Ifd.Long : DataType := ⟨4, 4, some false, .int⟩
def Ifd.Rational : DataType := ⟨5, 8, some false, .rational⟩
def Ifd.SByte : DataType := ⟨6, 1, some true, .int⟩
def Ifd.SShort : DataType := ⟨8, 2, some true, .int⟩
def Ifd.SLong : DataType := ⟨9, 4, some true, .int⟩
def Ifd.SRational : DataType := ⟨10, 8, some true, .rational⟩
def Ifd.Float : DataType := ⟨11, 4, none, .float⟩
def Ifd.Double : DataType := ⟨12, 8, none, .float⟩

/-- The ten numeric descriptors of the TYPES registry (ifddatatypes.py
lines 211-224), in type-code order; types 2 (Ascii) and 7 (Undefined)
override the uniform contract and are embedded separately. -/
def numericTypes : List DataType :=
  [Ifd.Byte, Ifd.Short, Ifd.Long, Ifd.Rational, Ifd.SByte,
   Ifd.SShort, Ifd.SLong, Ifd.SRational, Ifd.Float, Ifd.Double]

/-- Representable range of a descriptor, from the spec: the value must have
the natural shape for the descriptor and each component must fit the word
width (rationals pack as two 4-byte integers). -/
def DataType.inRange (D : DataType) (v : PyNum) : Bool :=
  match D.codec, v with
  | .int, .int n => intRangeB D.word_width (D.signed.getD false) n
  | .rational, .pair a b =>
      intRangeB 4 (D.signed.getD false) a && intRangeB 4 (D.signed.getD false) b
  | .float, .flt _ e m => floatRangeB D.word_width e m
  | _, _ => false

/-- The argument of `Ascii.encode`: a bare string or a list of strings
(Python 2 strings are byte strings, embedded as `List Nat`). -/
inductive AsciiStreams : Type where
  | str (s : List Nat)
  | list (ss : List (List Nat))
deriving DecidableEq, Repr

/-- Embeds `Ascii.encode` (ifddatatypes.py lines 97-111): a bare string is wrapped
in a list, then every string gets a null byte appended and all are
concatenated in order.  The byte-order flag is accepted and ignored. -/
def Ifd.Ascii.encode (streams : AsciiStreams) (is_big_endian : Bool) : List Nat :=
  let ss := match streams with
    | .str s => [s]
    | .list l => l
  ss.foldl (fun acc s => acc ++ s ++ [0]) []

/-- One step of the `Ascii.decode` loop (ifddatatypes.py lines 122-126):
a null byte appends a fresh empty string; any other byte is appended to
the last string, which raises IndexError when no string exists yet. -/
def asciiDecodeStep (streams : List (List Nat)) (c : Nat) : PyResult (List (List Nat)) :=
  if c = 0 then .ok (streams ++ [[]])
  else
    match streams with
    | [] => .exc (.indexError "list index out of range")
    | _ :: _ => .ok (appendToLast streams c)
where
  appendToLast : List (List Nat) → Nat → List (List Nat)
    | [], _ => []
    | [s], c => [s ++ [c]]
    | s :: rest, c => s :: appendToLast rest c

/-- The `Ascii.decode` loop over the byte stream (ifddatatypes.py lines
113-128), threading the exception of any step. -/
def asciiDecodeLoop (streams : List (List Nat)) : List Nat → PyResult (List (List Nat))
  | [] => .ok streams
  | c :: cs =>
    match asciiDecodeStep streams c with
    | .exc e => .exc e
    | .ok streams2 => asciiDecodeLoop streams2 cs

/-- Embeds `Ascii.decode` (ifddatatypes.py lines 113-128). -/
def Ifd.Ascii.decode (byte_stream : List Nat) (is_big_endian : Bool) :
    PyResult (List (List Nat)) :=
  asciiDecodeLoop [] byte_stream

/-- The argument of `Undefined.encode`: a byte string, or any value of a
non-string Python type (indexed by an arbitrary tag so the embedding has
one constructor per non-string input). -/
inductive UndefInput : Type where
  | str (bs : List Nat)
  | nonStr (k : Nat)
deriving DecidableEq, Repr

/-- Embeds `Undefined.encode` (ifddatatypes.py lines 165-170): a byte string is
returned unchanged; any other input type raises. -/
def Ifd.Undefined.encode (v : UndefInput) (is_big_endian : Bool) : PyResult (List Nat) :=
  match v with
  | .str bs => .ok bs
  | .nonStr _ =>
      .exc (.raiseStr "You need to encode the data stream yourself for type UNDEFINED!")

/-- Embeds `Undefined.decode` (ifddatatypes.py lines 172-174): the identity. -/
def Ifd.Undefined.decode (byte_stream : List Nat) (is_big_endian : Bool) : List Nat :=
  byte_stream

/-- A tag reference: Python callers pass either a tag number or a tag name
(metainfofile.py resolves both). -/
inductive TagRef : Type where
  | num (n : Nat)
  | name (s : String)
deriving DecidableEq, Repr

/-- A record reference: a record number or a record name. -/
inductive RecRef : Type where
  | num (n : Nat)
  | name (s : String)
deriving DecidableEq, Repr

/-- Python truthiness of a record reference (`if not (record)`): the number
0 and the empty string are falsy. -/
def RecRef.truthy : RecRef → Bool
  | .num n => n != 0
  | .name s => s != ""

/-- Python truthiness of an optional data-type argument (`if (data_type)`). -/
def pyTruthy : Option Nat → Bool
  | none => false
  | some d => d != 0

/-- One record of a metadata block.  The concrete record classes live in
modules outside the sources, so the record-level behavior is carried as
data: `getTagNum` embeds `MetaInfoRecord.getTagNum` (its tag tables are
per-derived-class; `none` stands for Python `False`), `getTagFn` embeds the
derived `getTag` method applied to the positional argument list built by
`MetaInfoBlock.getTag`, and `fields` is the field store of the data-block
collaborator. -/
structure MetaInfoRecord : Type where
  num : Nat
  name : String
  getTagNum : TagRef → Option Nat
  getTagFn : List Nat → PyResult (List Nat)
  fields : List (Nat × List Nat)

/-- A metadata block (`MetaInfoBlock`): its ordered record collection, as
held by the records QDB. -/
structure MetaInfoBlock : Type where
  records : List MetaInfoRecord

/-- The QDB lookup `self.records.query("num", rec_num, "record")`:
find the first record with the given number.  The lookup collaborator is
external; a miss is modelled as a failure (unreachable from resolved
record numbers). -/
def MetaInfoBlock.queryRecord (blk : MetaInfoBlock) (rn : Nat) : PyResult MetaInfoRecord :=
  match blk.records.find? (fun r => r.num == rn) with
  | some r => .ok r
  | none => .exc (.raiseStr "qdb query found no record row")

/-- Embeds `MetaInfoBlock.__getRecordNum__` (metainfofile.py lines 109-126):
validate a numeric record id against the known numbers, look a name up in
the records table, and raise otherwise — with `record = None` the final
branch raises `TyepError`, an undefined name, hence a NameError. -/
def MetaInfoBlock.getRecordNum (blk : MetaInfoBlock) (record : Option RecRef) :
    PyResult Nat :=
  match record with
  | some (.num r) =>
      if r ∈ blk.records.map (fun rec => rec.num) then .ok r
      else .exc (.valueError "Unknown record!")
  | some (.name s) =>
      match blk.records.find? (fun rec => rec.name == s) with
      | some rec => .ok rec.num
      | none => .exc (.valueError "Unknown record!")
  | none => .exc (.nameError "TyepError is not defined")

/-- The body of the search loop of `__getRecordAndTagNum__` (metainfofile.py
lines 143-146): query the record for this number, ask it for the tag
number, and append the pair when the record recognizes the tag. -/
def MetaInfoBlock.searchStep (blk : MetaInfoBlock) (tag : TagRef)
    (acc : List (Nat × Nat)) (rn : Nat) : PyResult (List (Nat × Nat)) :=
  match blk.queryRecord rn with
  | .exc e => .exc e
  | .ok r =>
    match r.getTagNum tag with
    | some tn => .ok (acc ++ [(rn, tn)])
    | none => .ok acc

/-- The search loop of `__getRecordAndTagNum__` over the record numbers. -/
def searchLoop (blk : MetaInfoBlock) (tag : TagRef)
    (acc : List (Nat × Nat)) : List Nat → PyResult (List (Nat × Nat))
  | [] => .ok acc
  | rn :: rns =>
    match blk.searchStep tag acc rn with
    | .exc e => .exc e
    | .ok acc2 => searchLoop blk tag acc2 rns

/-- Embeds `MetaInfoBlock.__getRecordAndTagNum__` (metainfofile.py lines 128-154):
without a record, search every record in declaration order; with one,
search only that record.  Zero matches raises KeyError, more than one
raises a string exception, exactly one is returned. -/
def MetaInfoBlock.getRecordAndTagNum (blk : MetaInfoBlock) (tag : TagRef)
    (record : Option RecRef) : PyResult (Nat × Nat) :=
  let recsE : PyResult (List Nat) :=
    match record with
    | none => .ok (blk.records.map (fun r => r.num))
    | some rr =>
      match blk.getRecordNum (some rr) with
      | .ok rn => .ok [rn]
      | .exc e => .exc e
  match recsE with
  | .exc e => .exc e
  | .ok recs =>
    match searchLoop blk tag [] recs with
    | .exc e => .exc e
    | .ok found =>
      match found with
      | [] => .exc (.keyError "Tag is unknown!")
      | [p] => .ok p
      | _ :: _ :: _ => .exc (.raiseStr "Tag occurs in multiple records!")

/-- All (record number, tag number) pairs whose record recognizes the tag,
in declaration order — the reference characterization of the search. -/
def tagMatches (recs : List MetaInfoRecord) (tag : TagRef) : List (Nat × Nat) :=
  recs.filterMap (fun r => (r.getTagNum tag).map (fun tn => (r.num, tn)))

/-- Result values returned through the block and file facades: Python None,
Python False, or tag data. -/
inductive PyRes : Type where
  | pyNone
  | pyFalse
  | pyData (d : List Nat)
deriving DecidableEq, Repr

/-- The data-retrieval half of `MetaInfoBlock.getTag` (metainfofile.py lines
52-64): a falsy record number skips the lookup and returns None; otherwise
the argument list is built — when a data type is given the code appends
`tag_num` (not the data type, line 58) — and the owning record is queried. -/
def MetaInfoBlock.getTagData (blk : MetaInfoBlock) (record_num tag_num : Nat)
    (data_type : Option Nat) : PyResult PyRes :=
  if record_num ≠ 0 then
    let gt_args := if pyTruthy data_type then [tag_num, tag_num] else [tag_num]
    match blk.queryRecord record_num with
    | .exc e => .exc e
    | .ok r =>
      match r.getTagFn gt_args with
      | .exc e => .exc e
      | .ok d => .ok (.pyData d)
  else .ok .pyNone

/-- Embeds `MetaInfoBlock.getTag` (metainfofile.py lines 37-64).  The KeyError
recovery path reads `tag_num` before any assignment when the tag is not an
integer, which raises UnboundLocalError. -/
def MetaInfoBlock.getTag (blk : MetaInfoBlock) (tag : TagRef) (record : Option RecRef)
    (data_type : Option Nat) : PyResult PyRes :=
  match blk.getRecordAndTagNum tag record with
  | .ok (rn, tn) => blk.getTagData rn tn data_type
  | .exc (.keyError _) =>
    match tag with
    | .num n =>
      match blk.getRecordNum record with
      | .ok rn => blk.getTagData rn n data_type
      | .exc e => .exc e
    | .name _ => .exc (.unboundLocalError "local variable tag_num referenced before assignment")
  | .exc e => .exc e

/-- Modelled from the spec: the derived record `setTag` creates or
overwrites the field entry for the tag number (validation and eager
encoding live in the derived record classes, outside the sources). -/
def MetaInfoRecord.setFieldEntry (r : MetaInfoRecord) (tn : Nat) (d : List Nat) :
    MetaInfoRecord :=
  { r with fields := r.fields.filter (fun p => p.1 ≠ tn) ++ [(tn, d)] }

/-- Modelled from the spec: the derived record `removeTag` deletes the
field entry if present. -/
def MetaInfoRecord.removeFieldEntry (r : MetaInfoRecord) (tn : Nat) : MetaInfoRecord :=
  { r with fields := r.fields.filter (fun p => p.1 ≠ tn) }

/-- In-place mutation of one record of the block, by record number. -/
def MetaInfoBlock.updateRecord (blk : MetaInfoBlock) (rn : Nat)
    (f : MetaInfoRecord → MetaInfoRecord) : MetaInfoBlock :=
  ⟨blk.records.map (fun r => if r.num = rn then f r else r)⟩

/-- The delegation half of `MetaInfoBlock.setTag` (metainfofile.py lines
87-89): a falsy record number skips the write entirely. -/
def MetaInfoBlock.setTagData (blk : MetaInfoBlock) (rn tn : Nat)
    (payload : Option (List Nat)) (data : Option (List Nat)) : PyResult MetaInfoBlock :=
  if rn ≠ 0 then
    match blk.queryRecord rn with
    | .exc e => .exc e
    | .ok _ => .ok (blk.updateRecord rn
        (fun r => r.setFieldEntry tn ((data.getD (payload.getD [])))))
  else .ok blk

/-- Embeds `MetaInfoBlock.setTag` (metainfofile.py lines 66-89).  On a KeyError
from resolution, a falsy record argument raises; otherwise the record is
resolved and a non-integer tag raises TypeError. -/
def MetaInfoBlock.setTag (blk : MetaInfoBlock) (tag : TagRef)
    (payload : Option (List Nat)) (record : Option RecRef) (check : Bool)
    (data_type : Option Nat) (data_count : Option Nat) (data : Option (List Nat)) :
    PyResult MetaInfoBlock :=
  match blk.getRecordAndTagNum tag record with
  | .ok (rn, tn) => blk.setTagData rn tn payload data
  | .exc (.keyError _) =>
    if (match record with | some rr => rr.truthy | none => false) = false then
      .exc (.raiseStr "Unknown tag, record needed")
    else
      match blk.getRecordNum record with
      | .exc e => .exc e
      | .ok rn =>
        match tag with
        | .num n => blk.setTagData rn n payload data
        | .name _ => .exc (.typeError "Unknown tag, needs to be specified as a number")
  | .exc e => .exc e

/-- Embeds `MetaInfoBlock.removeTag` (metainfofile.py lines 91-98): resolution
errors propagate (no try block); a falsy record number skips the delete. -/
def MetaInfoBlock.removeTag (blk : MetaInfoBlock) (tag : TagRef)
    (record : Option RecRef) : PyResult MetaInfoBlock :=
  match blk.getRecordAndTagNum tag record with
  | .exc e => .exc e
  | .ok (rn, tn) =>
    if rn ≠ 0 then
      match blk.queryRecord rn with
      | .exc e => .exc e
      | .ok _ => .ok (blk.updateRecord rn (fun r => r.removeFieldEntry tn))
    else .ok blk

/-- A metainformation file: its Python attribute dictionary, holding
optional block references.  `__init__` (metainfofile.py lines 208-210)
sets exactly the attributes `exif` and `IPTC`. -/
structure MetaInfoFile : Type where
  attrs : List (String × Option MetaInfoBlock)

/-- Embeds `MetaInfoFile.__init__`: `self.exif = None; self.IPTC = None`. -/
def MetaInfoFile.init : MetaInfoFile :=
  ⟨[("exif", none), ("IPTC", none)]⟩

/-- Python attribute lookup on a MetaInfoFile: a missing attribute raises
AttributeError. -/
def MetaInfoFile.getattr (f : MetaInfoFile) (a : String) : PyResult (Option MetaInfoBlock) :=
  match f.attrs.find? (fun p => p.1 == a) with
  | some p => .ok p.2
  | none => .exc (.attributeError a)

/-- In-place mutation of a block attribute (the Python methods mutate the
block object the attribute references). -/
def MetaInfoFile.setAttr (f : MetaInfoFile) (a : String) (b : MetaInfoBlock) : MetaInfoFile :=
  ⟨f.attrs.map (fun p => if p.1 = a then (p.1, some b) else p)⟩

/-- Embeds `MetaInfoFile.getExifTag` (metainfofile.py lines 212-219). -/
def MetaInfoFile.getExifTag (f : MetaInfoFile) (tag : TagRef) (record : Option RecRef) :
    PyResult PyRes :=
  match f.getattr "exif" with
  | .exc e => .exc e
  | .ok (some blk) => blk.getTag tag record none
  | .ok none => .ok .pyFalse

/-- Embeds `MetaInfoFile.setExifTag` (metainfofile.py lines 221-235). -/
def MetaInfoFile.setExifTag (f : MetaInfoFile) (tag : TagRef) (payload : Option (List Nat))
    (record : Option RecRef) (check : Bool) (data_type : Option Nat)
    (count : Option Nat) (data : Option (List Nat)) : PyResult MetaInfoFile :=
  match f.getattr "exif" with
  | .exc e => .exc e
  | .ok (some blk) =>
    match blk.setTag tag payload record check data_type count data with
    | .exc e => .exc e
    | .ok blk2 => .ok (f.setAttr "exif" blk2)
  | .ok none => .ok f

/-- Embeds `MetaInfoFile.delExifTag` (metainfofile.py lines 237-242). -/
def MetaInfoFile.delExifTag (f : MetaInfoFile) (tag : TagRef) (record : Option RecRef) :
    PyResult MetaInfoFile :=
  match f.getattr "exif" with
  | .exc e => .exc e
  | .ok (some blk) =>
    match blk.removeTag tag record with
    | .exc e => .exc e
    | .ok blk2 => .ok (f.setAttr "exif" blk2)
  | .ok none => .ok f

/-- Embeds `MetaInfoFile.getIPTCTag` (metainfofile.py lines 244-253): note that it
reads `self.iptc`, an attribute `__init__` never sets (`__init__` sets
`self.IPTC`). -/
def MetaInfoFile.getIPTCTag (f : MetaInfoFile) (tag : TagRef) (record : Option RecRef)
    (data_type : Option Nat) : PyResult PyRes :=
  match f.getattr "iptc" with
  | .exc e => .exc e
  | .ok (some blk) => blk.getTag tag record data_type
  | .ok none => .ok .pyFalse

/-- Embeds `MetaInfoFile.setIPTCTag` (metainfofile.py lines 255-269); reads
`self.iptc` as well. -/
def MetaInfoFile.setIPTCTag (f : MetaInfoFile) (tag : TagRef) (payload : Option (List Nat))
    (record : Option RecRef) (check : Bool) (data_type : Option Nat)
    (count : Option Nat) (data : Option (List Nat)) : PyResult MetaInfoFile :=
  match f.getattr "iptc" with
  | .exc e => .exc e
  | .ok (some blk) =>
    match blk.setTag tag payload record check data_type count data with
    | .exc e => .exc e
    | .ok blk2 => .ok (f.setAttr "iptc" blk2)
  | .ok none => .ok f

/-- Embeds `MetaInfoFile.appendIPTCTag` (metainfofile.py lines 271-277); reads
`self.iptc`, and would then call `appendTag`, a method the base
MetaInfoBlock class of the sources does not define — that branch is
modelled as the method-lookup failure and is unreachable in the theorems
below, which all run with the attribute unset. -/
def MetaInfoFile.appendIPTCTag (f : MetaInfoFile) (tag : TagRef) (payload : List Nat)
    (record : Option RecRef) : PyResult MetaInfoFile :=
  match f.getattr "iptc" with
  | .exc e => .exc e
  | .ok (some _) => .exc (.attributeError "appendTag")
  | .ok none => .ok f

/-- Embeds `MetaInfoFile.delIPTCTag` (metainfofile.py lines 279-285); reads
`self.iptc`. -/
def MetaInfoFile.delIPTCTag (f : MetaInfoFile) (tag : TagRef) (record : Option RecRef) :
    PyResult MetaInfoFile :=
  match f.getattr "iptc" with
  | .exc e => .exc e
  | .ok (some blk) =>
    match blk.removeTag tag record with
    | .exc e => .exc e
    | .ok blk2 => .ok (f.setAttr "iptc" blk2)
  | .ok none => .ok f

lemma asciiEncode_foldl (ss : List (List Nat)) :
    ∀ acc : List Nat,
      ss.foldl (fun acc s => acc ++ s ++ [0]) acc
        = acc ++ (ss.map (fun s => s ++ [0])).flatten := by
  induction ss with
  | nil => intro acc; simp
  | cons s rest ih =>
      intro acc
      show List.foldl (fun acc s => acc ++ s ++ [0]) (acc ++ s ++ [0]) rest = _
      rw [ih (acc ++ s ++ [0])]
      simp

/-- C8: `Ascii.encode` suffixes each string of an ordered sequence with
exactly one null byte and concatenates the results in input order, a bare
string being coerced to a one-element sequence; in particular the list
of strings a, bb encodes to the bytes of a NUL bb NUL. -/
theorem spec_c8_ascii_encode_contract :
    (∀ (ss : List (List Nat)) (be : Bool),
        Ifd.Ascii.encode (.list ss) be = (ss.map (fun s => s ++ [0])).flatten) ∧
    (∀ (s : List Nat) (be : Bool), Ifd.Ascii.encode (.str s) be = s ++ [0]) ∧
    Ifd.Ascii.encode (.list [[97], [98, 98]]) true = [97, 0, 98, 98, 0] := by
  refine ⟨fun ss be => ?_, fun s be => ?_, rfl⟩
  · show ss.foldl (fun acc s => acc ++ s ++ [0]) [] = _
    rw [asciiEncode_foldl ss []]
    simp
  · show [s].foldl (fun acc s => acc ++ s ++ [0]) [] = _
    simp

/-- C2 (code bug): encoding the strings a, bb yields the bytes of
a NUL bb NUL, but decoding those bytes raises IndexError instead of
returning the two strings — the decode loop only ever starts a new output
string at a null byte, so the very first byte 97 finds no string to
extend. -/
theorem spec_c2_text_decode_crashes :
    Ifd.Ascii.encode (.list [[97], [98, 98]]) true = [97, 0, 98, 98, 0] ∧
    Ifd.Ascii.decode [97, 0, 98, 98, 0] true = .exc (.indexError "list index out of range") :=
  ⟨rfl, rfl⟩

/-- C9: `Undefined.encode` is the identity on byte strings and fails on
every non-byte-string input, `Undefined.decode` is the identity, and hence
decode after encode is the identity on byte strings. -/
theorem spec_c9_undefined_identity :
    (∀ (b : List Nat) (be : Bool), Ifd.Undefined.encode (.str b) be = .ok b) ∧
    (∀ (bs : List Nat) (be : Bool), Ifd.Undefined.decode bs be = bs) ∧
    (∀ (k : Nat) (be : Bool), Ifd.Undefined.encode (.nonStr k) be =
        .exc (.raiseStr "You need to encode the data stream yourself for type UNDEFINED!")) ∧
    (∀ (b : List Nat) (be : Bool),
        (match Ifd.Undefined.encode (.str b) be with
         | .ok bs => .ok (Ifd.Undefined.decode bs be)
         | .exc e => .exc e) = PyResult.ok b) :=
  ⟨fun _ _ => rfl, fun _ _ => rfl, fun _ _ => rfl, fun _ _ => rfl⟩

/-- A record that recognizes no tag at all, its block, and a file whose
Exif reference is populated with that block. -/
def rec5 : MetaInfoRecord := ⟨1, "tiff", fun _ => none, fun _ => PyResult.ok [], []⟩

def blk5 : MetaInfoBlock := ⟨[rec5]⟩

def file5 : MetaInfoFile := ⟨[("exif", some blk5), ("IPTC", none)]⟩

/-- C5 (code bug): reading an unknown tag name through the facade with the
Exif block present does not return the absent-value sentinel: the KeyError
recovery path of `MetaInfoBlock.getTag` reads the never-assigned local
`tag_num` and raises UnboundLocalError. -/
theorem spec_c5_unknown_name_raises :
    file5.getExifTag (.name "NoSuchTag") none =
      .exc (.unboundLocalError "local variable tag_num referenced before assignment") := rfl

/-- C6 (code bug): on a freshly constructed MetaInfoFile the Exif
operations do no-op as claimed, but every IPTC operation raises
AttributeError, because `__init__` sets `self.IPTC` while the methods read
`self.iptc`. -/
theorem spec_c6_fresh_file_operations :
    MetaInfoFile.init.getExifTag (.name "Artist") none = .ok .pyFalse ∧
    MetaInfoFile.init.setExifTag (.name "Artist") (some [65]) none true none none none
      = .ok MetaInfoFile.init ∧
    MetaInfoFile.init.delExifTag (.name "Artist") none = .ok MetaInfoFile.init ∧
    MetaInfoFile.init.getIPTCTag (.name "Caption") none none = .exc (.attributeError "iptc") ∧
    MetaInfoFile.init.setIPTCTag (.name "Caption") (some [65]) none true none none none
      = .exc (.attributeError "iptc") ∧
    MetaInfoFile.init.appendIPTCTag (.name "Caption") [65] none
      = .exc (.attributeError "iptc") ∧
    MetaInfoFile.init.delIPTCTag (.name "Caption") none = .exc (.attributeError "iptc") :=
  ⟨rfl, rfl, rfl, rfl, rfl, rfl, rfl⟩

/-- A record whose embedded `getTag` method echoes the positional argument
list it receives, so the theorem can observe what the block passes on. -/
def rec7 : MetaInfoRecord :=
  ⟨1, "ifd0",
   (fun t => match t with | .num 5 => some 5 | _ => none),
   (fun args => PyResult.ok args), []⟩

def blk7 : MetaInfoBlock := ⟨[rec7]⟩

/-- C7 (code bug): with an explicit data type the block passes the tag
number twice to the owning record (metainfofile.py line 58 appends
`tag_num`, not `data_type`), so the record receives the argument list
5, 5 instead of 5, 7; without an explicit type only the tag number is
passed, as claimed. -/
theorem spec_c7_data_type_not_forwarded :
    blk7.getTag (.num 5) none (some 7) = .ok (.pyData [5, 5]) ∧
    blk7.getTag (.num 5) none none = .ok (.pyData [5]) :=
  ⟨rfl, rfl⟩

lemma find?_record_nodup :
    ∀ (l : List MetaInfoRecord), (l.map (fun r => r.num)).Nodup →
      ∀ r ∈ l, l.find? (fun x => x.num == r.num) = some r := by
  intro l
  induction l with
  | nil => intro _ r hr; cases hr
  | cons x rest ih =>
      intro hnd r hr
      rw [List.map_cons, List.nodup_cons] at hnd
      rcases List.mem_cons.mp hr with rfl | hr2
      · simp [List.find?_cons]
      · have hne : x.num ≠ r.num := by
          intro he
          exact hnd.1 (he ▸ List.mem_map_of_mem (fun rec => rec.num) hr2)
        have hb : (x.num == r.num) = false := by simp [hne]
        simp only [List.find?_cons, hb]
        exact ih hnd.2 r hr2

lemma searchLoop_eq (blk : MetaInfoBlock) (tag : TagRef) :
    ∀ (rs : List MetaInfoRecord),
      (∀ r ∈ rs, blk.queryRecord r.num = .ok r) →
      ∀ acc, searchLoop blk tag acc (rs.map (fun r => r.num))
        = .ok (acc ++ tagMatches rs tag) := by
  intro rs
  induction rs with
  | nil => intro _ acc; simp [searchLoop, tagMatches]
  | cons r rest ih =>
      intro hq acc
      have hr : blk.queryRecord r.num = .ok r := hq r (List.mem_cons_self r rest)
      have hrest : ∀ x ∈ rest, blk.queryRecord x.num = .ok x :=
        fun x hx => hq x (List.mem_cons_of_mem r hx)
      rw [List.map_cons]
      have hstep : blk.searchStep tag acc r.num =
          match r.getTagNum tag with
          | some tn => PyResult.ok (acc ++ [(r.num, tn)])
          | none => PyResult.ok acc := by
        rw [MetaInfoBlock.searchStep, hr]
      show (match blk.searchStep tag acc r.num with
        | PyResult.exc e => PyResult.exc e
        | PyResult.ok acc2 => searchLoop blk tag acc2 (rest.map (fun x => x.num)))
          = PyResult.ok (acc ++ tagMatches (r :: rest) tag)
      cases hgt : r.getTagNum tag with
      | some tn =>
          rw [hgt] at hstep
          rw [hstep]
          show searchLoop blk tag (acc ++ [(r.num, tn)]) (rest.map (fun r => r.num)) = _
          rw [ih hrest (acc ++ [(r.num, tn)])]
          simp [tagMatches, hgt]
      | none =>
          rw [hgt] at hstep
          rw [hstep]
          show searchLoop blk tag acc (rest.map (fun r => r.num)) = _
          rw [ih hrest acc]
          simp [tagMatches, hgt]

/-- C1: with no record given, the resolution of `__getRecordAndTagNum__`
collects every (record number, tag number) pair whose record recognizes
the tag, in declaration order; zero matches raises the unknown-tag
KeyError, more than one raises the ambiguity error, and exactly one match
is returned — it never returns the first of several matches. -/
theorem spec_c1_resolution_collects_all_matches (blk : MetaInfoBlock) (tag : TagRef)
    (h : (blk.records.map (fun r => r.num)).Nodup) :
    blk.getRecordAndTagNum tag none =
      (match tagMatches blk.records tag with
      | [] => PyResult.exc (.keyError "Tag is unknown!")
      | [p] => PyResult.ok p
      | _ :: _ :: _ => PyResult.exc (.raiseStr "Tag occurs in multiple records!")) := by
  have hq : ∀ r ∈ blk.records, blk.queryRecord r.num = .ok r := by
    intro r hr
    rw [MetaInfoBlock.queryRecord, find?_record_nodup blk.records h r hr]
  show (match searchLoop blk tag [] (blk.records.map (fun r => r.num)) with
    | PyResult.exc e => PyResult.exc e
    | PyResult.ok found =>
      match found with
      | [] => PyResult.exc (PyErr.keyError "Tag is unknown!")
      | [p] => PyResult.ok p
      | _ :: _ :: _ => PyResult.exc (PyErr.raiseStr "Tag occurs in multiple records!")) = _
  rw [searchLoop_eq blk tag blk.records hq []]
  simp only [List.nil_append]

/-- Two records with distinct numbers that both recognize tag 5. -/
def recC1a : MetaInfoRecord :=
  ⟨1, "A", (fun t => match t with | .num 5 => some 5 | _ => none), (fun _ => PyResult.ok []), []⟩

def recC1b : MetaInfoRecord :=
  ⟨2, "B", (fun t => match t with | .num 5 => some 5 | _ => none), (fun _ => PyResult.ok []), []⟩

def blkC1 : MetaInfoBlock := ⟨[recC1a, recC1b]⟩

/-- C1 witness: on a concrete block with two records both recognizing tag
5, unscoped resolution fails with the ambiguity error. -/
theorem spec_c1_witness :
    (blkC1.records.map (fun r => r.num)).Nodup ∧
    blkC1.getRecordAndTagNum (.num 5) none = .exc (.raiseStr "Tag occurs in multiple records!") :=
  ⟨by decide, (spec_c1_resolution_collects_all_matches blkC1 (.num 5) (by decide)).trans rfl⟩

/-- C10: whenever resolution yields record number 0, the facade operations
silently do nothing: `getTag` returns None without consulting any record,
and `setTag` and `removeTag` leave the block unchanged — the delegation is
guarded by the truthiness of the resolved record number. -/
theorem spec_c10_record_zero_noop (blk : MetaInfoBlock) (tag : TagRef)
    (record : Option RecRef) (dt : Option Nat) (payload data : Option (List Nat))
    (check : Bool) (dct : Option Nat) (tn : Nat)
    (h : blk.getRecordAndTagNum tag record = .ok (0, tn)) :
    blk.getTag tag record dt = .ok .pyNone ∧
    blk.setTag tag payload record check dt dct data = .ok blk ∧
    blk.removeTag tag record = .ok blk := by
  refine ⟨?_, ?_, ?_⟩
  · rw [MetaInfoBlock.getTag.eq_def, h]
    simp [MetaInfoBlock.getTagData]
  · rw [MetaInfoBlock.setTag.eq_def, h]
    simp [MetaInfoBlock.setTagData]
  · rw [MetaInfoBlock.removeTag.eq_def, h]
    simp

/-- A block whose only record is numbered 0 and recognizes tag 7. -/
def blkC10 : MetaInfoBlock :=
  ⟨[⟨0, "zero", (fun t => match t with | .num 7 => some 7 | _ => none),
     (fun _ => PyResult.ok []), [(7, [1])]⟩]⟩

/-- C10 witness: on a concrete block whose record number is 0, resolution
yields record 0 and all three operations are no-ops. -/
theorem spec_c10_witness :
    blkC10.getRecordAndTagNum (.num 7) none = .ok (0, 7) ∧
    (blkC10.getTag (.num 7) none none = .ok .pyNone ∧
     blkC10.setTag (.num 7) (some [9]) none true none none none = .ok blkC10 ∧
     blkC10.removeTag (.num 7) none = .ok blkC10) :=
  ⟨rfl, spec_c10_record_zero_noop blkC10 (.num 7) none none (some [9]) none true none 7 rfl⟩

lemma decodeWords_length (D : DataType) (be : Bool) :
    ∀ (k : Nat) (bs : List Nat), (decodeWords D be k bs).length = k := by
  intro k
  induction k with
  | zero => intro bs; rfl
  | succ k ih => intro bs; simp [decodeWords, ih]

lemma decodeWords_getD (D : DataType) (be : Bool) :
    ∀ (k : Nat) (bs : List Nat) (i : Nat), i < k →
      (decodeWords D be k bs).getD i (.int 0)
        = D.wordDecode ((bs.drop (D.word_width * i)).take D.word_width) be := by
  intro k
  induction k with
  | zero => intro bs i hi; exact absurd hi (Nat.not_lt_zero i)
  | succ k ih =>
      intro bs i hi
      cases i with
      | zero => simp [decodeWords]
      | succ i =>
          simp only [decodeWords, List.getD_cons_succ]
          rw [ih (bs.drop D.word_width) i (by omega)]
          rw [List.drop_drop]
          have harith : D.word_width + D.word_width * i = D.word_width * (i + 1) := by ring
          rw [harith]

/-- C4: for every numeric descriptor, decoding a byte string whose length
is not an exact multiple of the word width fails with the
malformed-payload error; when the length is an exact multiple, decode
returns exactly one scalar per word-width-sized word, in stream order. -/
theorem spec_c4_word_width_check (D : DataType) (hD : D ∈ numericTypes)
    (bs : List Nat) (be : Bool) :
    (bs.length % D.word_width ≠ 0 →
      D.decode bs be
        = .exc (.raiseStr "The number of bytes for decoding does not match the specified word width!")) ∧
    (bs.length % D.word_width = 0 →
      ∃ vs, D.decode bs be = .ok vs ∧ vs.length = bs.length / D.word_width ∧
        ∀ i, i < vs.length →
          vs.getD i (.int 0)
            = D.wordDecode ((bs.drop (D.word_width * i)).take D.word_width) be) := by
  constructor
  · intro h
    rw [DataType.decode, if_pos h]
  · intro h
    refine ⟨_, by rw [DataType.decode, if_neg (by omega)], decodeWords_length D be _ bs, ?_⟩
    intro i hi
    rw [decodeWords_length] at hi
    exact decodeWords_getD D be _ bs i hi

/-- C4 witness: three bytes are not a multiple of the Short word width 2,
so decoding them fails with the malformed-payload error. -/
theorem spec_c4_witness :
    (([1, 2, 3] : List Nat).length % Ifd.Short.word_width ≠ 0) ∧
    Ifd.Short.decode [1, 2, 3] true
      = .exc (.raiseStr "The number of bytes for decoding does not match the specified word width!") :=
  ⟨by decide, (spec_c4_word_width_check Ifd.Short (by decide) [1, 2, 3] true).1 (by decide)⟩

lemma decode_encode_float (w : Nat) (hw : w = 4 ∨ w = 8) (s : Bool) (e m : Nat) (be : Bool)
    (h : floatRangeB w e m = true) :
    ∃ bs, encode_float s e m w be = .ok bs ∧ bs.length = w ∧
      decode_float bs be = .flt s e m := by
  have horig := h
  rcases hw with rfl | rfl
  · -- width 4
    simp [floatRangeB, fits32] at h
    obtain ⟨⟨he, hm⟩, hfits⟩ := h
    rcases hfits with ⟨he0, hm0⟩ | ⟨⟨h897, h1150⟩, h29⟩
    · subst he0; subst hm0
      refine ⟨bytesOf (if s then 2 ^ 31 else 0) 4 be, ?_, ?_, ?_⟩ <;>
        cases s <;> cases be <;> decide
    · have hne : e ≠ 0 := by omega
      refine ⟨bytesOf ((if s then 2 ^ 31 else 0) + (e - 896) * 2 ^ 23 + m / 2 ^ 29) 4 be,
        by rw [encode_float, if_pos horig, if_neg (by omega), if_pos rfl, if_neg hne],
        bytesOf_length _ _ _, ?_⟩
      cases s
      · rw [if_neg Bool.false_ne_true]
        have hdq : m / 2 ^ 29 < 2 ^ 23 := by omega
        have hbound : 0 + (e - 896) * 2 ^ 23 + m / 2 ^ 29 < 2 ^ (8 * 4) := by omega
        rw [decode_float, if_neg (by rw [bytesOf_length]; omega)]
        rw [natOfBytes_bytesOf _ _ _ hbound]
        rw [Nat.mod_eq_of_lt (by omega)]
        have hE : (0 + (e - 896) * 2 ^ 23 + m / 2 ^ 29) / 2 ^ 23 % 2 ^ 8 = e - 896 := by omega
        rw [decode_float32, hE, if_neg (by omega), if_neg (by omega)]
        simp only [PyNum.flt.injEq]
        refine ⟨?_, by omega, by omega⟩
        simp only [decide_eq_false_iff_not]
        omega
      · rw [if_pos rfl]
        have hdq : m / 2 ^ 29 < 2 ^ 23 := by omega
        have hbound : 2 ^ 31 + (e - 896) * 2 ^ 23 + m / 2 ^ 29 < 2 ^ (8 * 4) := by omega
        rw [decode_float, if_neg (by rw [bytesOf_length]; omega)]
        rw [natOfBytes_bytesOf _ _ _ hbound]
        rw [Nat.mod_eq_of_lt (by omega)]
        have hE : (2 ^ 31 + (e - 896) * 2 ^ 23 + m / 2 ^ 29) / 2 ^ 23 % 2 ^ 8 = e - 896 := by
          omega
        rw [decode_float32, hE, if_neg (by omega), if_neg (by omega)]
        simp only [PyNum.flt.injEq]
        refine ⟨?_, by omega, by omega⟩
        simp only [decide_eq_true_eq]
        omega
  · -- width 8
    simp [floatRangeB] at h
    obtain ⟨he, hm⟩ := h
    refine ⟨bytesOf ((if s then 2 ^ 63 else 0) + e * 2 ^ 52 + m) 8 be,
      by rw [encode_float, if_pos horig, if_pos rfl], bytesOf_length _ _ _, ?_⟩
    cases s
    · rw [if_neg Bool.false_ne_true]
      have hbound : 0 + e * 2 ^ 52 + m < 2 ^ (8 * 8) := by omega
      rw [decode_float, if_pos (bytesOf_length _ _ _)]
      rw [natOfBytes_bytesOf _ _ _ hbound]
      rw [Nat.mod_eq_of_lt (by omega)]
      simp only [PyNum.flt.injEq]
      refine ⟨?_, by omega, by omega⟩
      simp only [decide_eq_false_iff_not]
      omega
    · rw [if_pos rfl]
      have hbound : 2 ^ 63 + e * 2 ^ 52 + m < 2 ^ (8 * 8) := by omega
      rw [decode_float, if_pos (bytesOf_length _ _ _)]
      rw [natOfBytes_bytesOf _ _ _ hbound]
      rw [Nat.mod_eq_of_lt (by omega)]
      simp only [PyNum.flt.injEq]
      refine ⟨?_, by omega, by omega⟩
      simp only [decide_eq_true_eq]
      omega

lemma roundtrip_single (D : DataType) (be : Bool) (hww : 1 ≤ D.word_width) (v : PyNum)
    (bs : List Nat) (henc : D.wordEncode v be = .ok bs) (hlen : bs.length = D.word_width)
    (hdec : D.wordDecode bs be = v) :
    D.roundtrip (.seq [v]) be = .ok [v] := by
  have henc2 : D.encode (.seq [v]) be = .ok bs := by
    show encodeWords D be [v] = .ok bs
    simp only [encodeWords, henc]
    simp
  rw [DataType.roundtrip.eq_def, henc2]
  show D.decode bs be = PyResult.ok [v]
  rw [DataType.decode.eq_def, hlen, Nat.mod_self, Nat.div_self (by omega), if_neg (by omega)]
  have h1 : decodeWords D be 1 bs = [D.wordDecode (bs.take D.word_width) be] := rfl
  rw [h1, ← hlen, List.take_length, hdec]

lemma roundtrip_int (D : DataType) (be : Bool) (sg : Bool) (hc : D.codec = .int)
    (hs : D.signed = some sg) (hww : 1 ≤ D.word_width) (n : Int)
    (h : intRangeB D.word_width sg n = true) :
    D.roundtrip (.seq [.int n]) be = .ok [.int n] ∧
    D.roundtrip (.scalar (.int n)) be = .ok [.int n] := by
  obtain ⟨bs, he, hlen, hdec⟩ := decode_encode_int D.word_width hww n sg be h
  have henc : D.wordEncode (.int n) be = .ok bs := by
    rw [DataType.wordEncode, hc]
    show itob (.int n) D.word_width (D.signed.getD false) be = .ok bs
    rw [hs]
    show encode_int n D.word_width sg be = .ok bs
    exact he
  have hdec2 : D.wordDecode bs be = .int n := by
    rw [DataType.wordDecode, hc]
    show btoi bs (D.signed.getD false) be = .int n
    rw [hs]
    show PyNum.int (decode_int bs sg be) = .int n
    rw [hdec]
  have hmain := roundtrip_single D be hww (.int n) bs henc hlen hdec2
  exact ⟨hmain, hmain⟩

lemma roundtrip_rational (D : DataType) (be : Bool) (sg : Bool) (hc : D.codec = .rational)
    (hs : D.signed = some sg) (hww : D.word_width = 8) (a b : Int)
    (ha : intRangeB 4 sg a = true) (hb : intRangeB 4 sg b = true) :
    D.roundtrip (.seq [.pair a b]) be = .ok [.pair a b] := by
  obtain ⟨A, heA, hlA, hdA⟩ := decode_encode_int 4 (by norm_num) a sg be ha
  obtain ⟨B, heB, hlB, hdB⟩ := decode_encode_int 4 (by norm_num) b sg be hb
  have henc : D.wordEncode (.pair a b) be = .ok (A ++ B) := by
    rw [DataType.wordEncode, hc]
    show rtob (.pair a b) D.word_width (D.signed.getD false) be = .ok (A ++ B)
    rw [hs, hww]
    show (match encode_int a (8 / 2) sg be, encode_int b (8 / 2) sg be with
      | PyResult.ok na, PyResult.ok nb => PyResult.ok (na ++ nb)
      | PyResult.exc e, _ => PyResult.exc e
      | PyResult.ok _, PyResult.exc e => PyResult.exc e) = PyResult.ok (A ++ B)
    have h42 : (8 : Nat) / 2 = 4 := by norm_num
    rw [h42, heA, heB]
  have hlen : (A ++ B).length = D.word_width := by
    rw [List.length_append, hlA, hlB, hww]
  have hdec : D.wordDecode (A ++ B) be = .pair a b := by
    rw [DataType.wordDecode, hc]
    show btor (A ++ B) (D.signed.getD false) be = .pair a b
    rw [hs]
    show PyNum.pair (decode_int ((A ++ B).take ((A ++ B).length / 2)) sg be)
      (decode_int ((A ++ B).drop ((A ++ B).length / 2)) sg be) = .pair a b
    have hhalf : (A ++ B).length / 2 = 4 := by
      rw [List.length_append, hlA, hlB]
    rw [hhalf]
    rw [show (A ++ B).take 4 = A from by rw [← hlA]; exact List.take_left A B]
    rw [show (A ++ B).drop 4 = B from by rw [← hlA]; exact List.drop_left A B]
    rw [hdA, hdB]
  exact roundtrip_single D be (by omega) (.pair a b) (A ++ B) henc hlen hdec

lemma roundtrip_float (D : DataType) (be : Bool) (hc : D.codec = .float)
    (hw : D.word_width = 4 ∨ D.word_width = 8) (s : Bool) (e m : Nat)
    (h : floatRangeB D.word_width e m = true) :
    D.roundtrip (.seq [.flt s e m]) be = .ok [.flt s e m] ∧
    D.roundtrip (.scalar (.flt s e m)) be = .ok [.flt s e m] := by
  obtain ⟨bs, he, hlen, hdec⟩ := decode_encode_float D.word_width hw s e m be h
  have henc : D.wordEncode (.flt s e m) be = .ok bs := by
    rw [DataType.wordEncode, hc]
    exact he
  have hdec2 : D.wordDecode bs be = .flt s e m := by
    rw [DataType.wordDecode, hc]
    exact hdec
  have hww : 1 ≤ D.word_width := by rcases hw with h4 | h8 <;> omega
  have hmain := roundtrip_single D be hww (.flt s e m) bs henc hlen hdec2
  exact ⟨hmain, hmain⟩

/-- C3 (amended): for every numeric descriptor, both byte orders and every
value in the representable range of the descriptor, decoding the encoding of
the one-element sequence yields the one-element list of that value; for
the non-rational descriptors (all but types 5 and 10) the same holds for
a bare scalar, which the encoder coerces to a one-element sequence.  A
bare rational pair is not coerced (the source coerces only int, long and
float scalars), which is the corrected part of the claim. -/
theorem spec_c3_numeric_roundtrip (D : DataType) (hD : D ∈ numericTypes) (v : PyNum)
    (be : Bool) (h : D.inRange v = true) :
    D.roundtrip (.seq [v]) be = .ok [v] ∧
    (D.num ≠ 5 → D.num ≠ 10 → D.roundtrip (.scalar v) be = .ok [v]) := by
  simp only [numericTypes, List.mem_cons, List.mem_nil_iff, or_false] at hD
  rcases hD with rfl | rfl | rfl | rfl | rfl | rfl | rfl | rfl | rfl | rfl
  · cases v with
    | int n =>
        have hrt := roundtrip_int Ifd.Byte be false rfl rfl (by decide) n h
        exact ⟨hrt.1, fun _ _ => hrt.2⟩
    | pair a b => exact Bool.noConfusion h
    | flt s e m => exact Bool.noConfusion h
  · cases v with
    | int n =>
        have hrt := roundtrip_int Ifd.Short be false rfl rfl (by decide) n h
        exact ⟨hrt.1, fun _ _ => hrt.2⟩
    | pair a b => exact Bool.noConfusion h
    | flt s e m => exact Bool.noConfusion h
  · cases v with
    | int n =>
        have hrt := roundtrip_int Ifd.Long be false rfl rfl (by decide) n h
        exact ⟨hrt.1, fun _ _ => hrt.2⟩
    | pair a b => exact Bool.noConfusion h
    | flt s e m => exact Bool.noConfusion h
  · cases v with
    | pair a b =>
        have h2 : (intRangeB 4 false a && intRangeB 4 false b) = true := h
        rw [Bool.and_eq_true] at h2
        have hrt := roundtrip_rational Ifd.Rational be false rfl rfl rfl a b h2.1 h2.2
        exact ⟨hrt, fun h5 _ => absurd rfl h5⟩
    | int n => exact Bool.noConfusion h
    | flt s e m => exact Bool.noConfusion h
  · cases v with
    | int n =>
        have hrt := roundtrip_int Ifd.SByte be true rfl rfl (by decide) n h
        exact ⟨hrt.1, fun _ _ => hrt.2⟩
    | pair a b => exact Bool.noConfusion h
    | flt s e m => exact Bool.noConfusion h
  · cases v with
    | int n =>
        have hrt := roundtrip_int Ifd.SShort be true rfl rfl (by decide) n h
        exact ⟨hrt.1, fun _ _ => hrt.2⟩
    | pair a b => exact Bool.noConfusion h
    | flt s e m => exact Bool.noConfusion h
  · cases v with
    | int n =>
        have hrt := roundtrip_int Ifd.SLong be true rfl rfl (by decide) n h
        exact ⟨hrt.1, fun _ _ => hrt.2⟩
    | pair a b => exact Bool.noConfusion h
    | flt s e m => exact Bool.noConfusion h
  · cases v with
    | pair a b =>
        have h2 : (intRangeB 4 true a && intRangeB 4 true b) = true := h
        rw [Bool.and_eq_true] at h2
        have hrt := roundtrip_rational Ifd.SRational be true rfl rfl rfl a b h2.1 h2.2
        exact ⟨hrt, fun _ h10 => absurd rfl h10⟩
    | int n => exact Bool.noConfusion h
    | flt s e m => exact Bool.noConfusion h
  · cases v with
    | flt s e m =>
        have hrt := roundtrip_float Ifd.Float be rfl (Or.inl rfl) s e m h
        exact ⟨hrt.1, fun _ _ => hrt.2⟩
    | int n => exact Bool.noConfusion h
    | pair a b => exact Bool.noConfusion h
  · cases v with
    | flt s e m =>
        have hrt := roundtrip_float Ifd.Double be rfl (Or.inr rfl) s e m h
        exact ⟨hrt.1, fun _ _ => hrt.2⟩
    | int n => exact Bool.noConfusion h
    | pair a b => exact Bool.noConfusion h

/-- C3 counterexample: a bare rational scalar is not treated as a
one-element sequence — the encoder iterates over the two components of
the pair and hands an integer to the rational word packer, so the
round-trip of the bare in-range rational 1/2 does not yield the
one-element list, refuting the scalar-coercion clause for type 5. -/
theorem spec_c3_counterexample :
    Ifd.Rational.inRange (.pair 1 2) = true ∧
    Ifd.Rational.roundtrip (.scalar (.pair 1 2)) true ≠ .ok [.pair 1 2] := by
  refine ⟨by decide, ?_⟩
  intro hcontra
  exact PyResult.noConfusion hcontra

/-- C3 witness: the Byte descriptor round-trips the in-range value 200 in
little-endian order, both as a one-element sequence and as a bare
scalar. -/
theorem spec_c3_witness :
    Ifd.Byte.inRange (.int 200) = true ∧
    (Ifd.Byte.roundtrip (.seq [.int 200]) false = .ok [.int 200] ∧
     (Ifd.Byte.num ≠ 5 → Ifd.Byte.num ≠ 10 →
        Ifd.Byte.roundtrip (.scalar (.int 200)) false = .ok [.int 200])) :=
  ⟨by decide, spec_c3_numeric_roundtrip Ifd.Byte (by decide) (.int 200) false (by decide)⟩
